import Mathlib

/-!
Verification of the basalt-vscode item-editor core: a shallow embedding of
the host-side asset resolution layer (`src/item-editor.ts`,
`src/util/run-minecraft.ts`), the shared message protocol
(`src/shared/proto.ts`, `src/shared/item.ts`), the webview cache keys
(`src/item-editor/util/hash.ts`), the preview enchantment detection
(`src/item-editor/util/preview.ts`), the bitmap-font builder
(`src/item-editor/util/mcbitmapfont.ts`) and the tooltip layout
(`src/item-editor/util/tooltip.ts`).

Pure functions become Lean functions; the filesystem, the external NBT
parser and the text-measurement of the rendering library are passed in as
explicit environments; JSON values are modelled by an inductive `Json`
type (the textual JSON layer of `JSON.stringify`/`JSON.parse` is collapsed
to the value level, with JSON numbers modelled as integers); the
asynchronous unpack bookkeeping becomes an explicit state-transition
system whose steps are the scheduler slots of the single-threaded event
loop.
-/

/-! ## String helpers shared by several source functions -/

/-- JS `s.substring(s.indexOf(c) + 1)` for a one-character search string:
the suffix after the first occurrence of `c`, or `s` itself when `c` does
not occur (JS `indexOf` returns `-1` and `substring(0)` is the identity). -/
def jsSubstringAfterFirst (c : Char) (s : String) : String :=
  match s.toList.dropWhile (fun d => d ≠ c) with
  | [] => s
  | _ :: rest => ⟨rest⟩

/-- JS `s.replaceAll("\n", "")`. -/
def jsRemoveNewlines (s : String) : String :=
  ⟨s.toList.filter (fun d => d ≠ '\n')⟩

/-- First-match lookup in an association list; models reading a property
of a JS runtime object (whose keys are unique). -/
def jGet {κ α : Type} [DecidableEq κ] : List (κ × α) → κ → Option α
  | [], _ => none
  | (k, v) :: rest, key => if k = key then some v else jGet rest key

/-! ## `src/item-editor/util/hash.ts` — the resource cache keys -/

/-- `src/shared/item.ts` — the zod `Item` schema's value type: `IItem`.
JSON numbers (the `count` field) are modelled as integers. -/
structure Item where
  minecraftVersion : String
  id : String
  count : Int
  components : List (String × String)
deriving DecidableEq, Repr

/-- `hashItemTexture` from `src/item-editor/util/hash.ts`:
`` `${item.minecraftVersion}##${item.id}` ``. -/
def hashItemTexture (item : Item) : String :=
  item.minecraftVersion ++ "##" ++ item.id

/-- `hashResource` from `src/item-editor/util/hash.ts`:
`` `${version}##${resource}` ``. -/
def hashResource (version : String) (resource : String) : String :=
  version ++ "##" ++ resource

/-! ## `src/item-editor.ts` — path layout and item-sprite resolution -/

/-- `getUnpackedVersionDirectory`: `path.join(getDotMinecraft(), ".basalt",
"unpacked", version)`. The `.minecraft` root is platform dependent and is
passed in as `dotMinecraft`; `path.join` is modelled as `/`-separated
concatenation. -/
def getUnpackedVersionDirectory (dotMinecraft version : String) : String :=
  dotMinecraft ++ "/.basalt/unpacked/" ++ version

/-- `stripMinecraftNamespace`:
`resource.substring(resource.indexOf("/") + 1)`. -/
def stripMinecraftNamespace (resource : String) : String :=
  jsSubstringAfterFirst '/' resource

/-- A JSON value, as produced by `JSON.parse`. Runtime objects have unique
keys (duplicate keys cannot survive `JSON.parse`), numbers are modelled as
integers. -/
inductive Json where
  | null
  | bool (b : Bool)
  | num (n : Int)
  | str (s : String)
  | arr (elems : List Json)
  | obj (fields : List (String × Json))

/-- Result of `fs.readFile(path, utf-8)` followed by `JSON.parse`:
`absent` models the `ENOENT` rejection of `readFile`, `malformed` a
`JSON.parse` throw, `content` the parsed value. -/
inductive ReadJsonResult where
  | absent
  | malformed
  | content (j : Json)

/-- The filesystem as seen by `getUnpackedItemResource`: `fileExists`
models the `exists()` helper (an `fs.access(R_OK | W_OK)` probe) and
`readJson` models `fs.readFile` + `JSON.parse` at a path. -/
structure ItemFS where
  fileExists : String → Bool
  readJson : String → ReadJsonResult

/-- How `getUnpackedItemResource` can fail: `resourceNotFound` is the
`ENOENT` rejection of `fs.readFile` when the block-model descriptor is
absent; `jsonParseError` a `JSON.parse` throw on its contents;
`typeError` the `TypeError`s thrown when `blockData.textures` is not an
object, is empty (`Object.values(...)[0]` is `undefined`), or the chosen
texture reference is not a string. -/
inductive ItemResourceError where
  | resourceNotFound
  | jsonParseError
  | typeError
deriving DecidableEq, Repr

/-- `getUnpackedItemResource(version, id)` from `src/item-editor.ts`
lines 228-249: strip the `:`-namespace from `id`; return the direct item
texture path if that file exists; otherwise read the block-model JSON and
pick `textures.side` if present, else the first texture value, strip its
`/`-prefix and resolve it under `textures/block`. -/
def getUnpackedItemResource (fs : ItemFS) (dotMinecraft version id : String) :
    Except ItemResourceError String :=
  let id' := jsSubstringAfterFirst ':' id
  let unpackedVersion := getUnpackedVersionDirectory dotMinecraft version
  let itemPath := unpackedVersion ++ "/textures/item/" ++ id' ++ ".png"
  if fs.fileExists itemPath then .ok itemPath
  else
    match fs.readJson (unpackedVersion ++ "/models/block/" ++ id' ++ ".json") with
    | .absent => .error .resourceNotFound
    | .malformed => .error .jsonParseError
    | .content j =>
      match j with
      | .obj fields =>
        match jGet fields "textures" with
        | some (Json.obj texs) =>
          match jGet texs "side" with
          | some (Json.str s) =>
            .ok (unpackedVersion ++ "/textures/block/" ++ stripMinecraftNamespace s ++ ".png")
          | some _ => .error .typeError
          | none =>
            match texs with
            | [] => .error .typeError
            | (_, Json.str s) :: _ =>
              .ok (unpackedVersion ++ "/textures/block/" ++ stripMinecraftNamespace s ++ ".png")
            | (_, _) :: _ => .error .typeError
        | _ => .error .typeError
      | _ => .error .typeError

/-! ## `src/item-editor/util/preview.ts` — enchantment detection

The SNBT parser comes from the external `@basalt-nbt` package, so it is a
parameter of the embedding. The claims only distinguish a byte tag (with
its value) and a compound tag (with its list of entries, as returned by
`CompoundTag.list()`); every other tag kind is collapsed into `other`. -/

inductive NBTTag where
  | byte (v : Int)
  | compound (entries : List (String × NBTTag))
  | other

/-- A parse run of `NBT.parseSNBT`: `.error` models a thrown exception. -/
def SNBTParser : Type := String → Except String NBTTag

/-- `tryParseSNBT` from `src/item-editor/util/preview.ts` lines 29-35:
wrap `NBT.parseSNBT` and turn a thrown exception into `null`. -/
def tryParseSNBT (parseSNBT : SNBTParser) (snbt : String) : Option NBTTag :=
  match parseSNBT snbt with
  | .ok tag => some tag
  | .error _ => none

/-- `isItemEnchanted` from `src/item-editor/util/preview.ts` lines 37-51:
if the `minecraft:enchantment_glint_override` component is present, the
item is enchanted iff it parses (newlines removed) to a byte tag of value
1; otherwise, if `minecraft:enchantments` is present, iff it parses to a
compound tag with a non-empty entry list; otherwise not enchanted. -/
def isItemEnchanted (parseSNBT : SNBTParser) (item : Item) : Bool :=
  match jGet item.components "minecraft:enchantment_glint_override" with
  | some s =>
    match tryParseSNBT parseSNBT (jsRemoveNewlines s) with
    | some (NBTTag.byte v) => v == 1
    | _ => false
  | none =>
    match jGet item.components "minecraft:enchantments" with
    | some s =>
      match tryParseSNBT parseSNBT (jsRemoveNewlines s) with
      | some (NBTTag.compound entries) => entries.length > 0
      | _ => false
    | none => false

/-! ## `src/shared/item.ts` + document save/open — the Item JSON codec

`saveCustomDocumentAs` writes `JSON.stringify(document.item)`;
`ItemEditorDocument.init` reads the file and runs
`mc.Item.parse(JSON.parse(data))`. The textual layer is collapsed: the
composition is modelled as `decodeItemJson ∘ serializeItem` on `Json`
values. `decodeItemJson` mirrors the zod schema `Item` (an object with a
string `minecraftVersion`, string `id`, number `count` and a
string-to-string record `components`; unknown keys are stripped, missing
or ill-typed keys fail, `null` components fail). -/

/-- `Json.str` projection, as zod `z.string()`. -/
def jsonAsString : Json → Option String
  | .str s => some s
  | _ => none

/-- `Json.num` projection, as zod `z.number()`. -/
def jsonAsNumber : Json → Option Int
  | .num n => some n
  | _ => none

/-- Field-wise traversal of an object's entries, each value required to
be a string. -/
def jsonFieldsAsStrings : List (String × Json) → Option (List (String × String))
  | [] => some []
  | (k, v) :: rest =>
    match jsonAsString v with
    | some s => (jsonFieldsAsStrings rest).map (fun tail => (k, s) :: tail)
    | none => none

/-- zod `z.record(z.string(), z.string())`: an object whose values are
all strings; anything else (null, array, primitives) fails. -/
def jsonAsStringRecord : Json → Option (List (String × String))
  | .obj fields => jsonFieldsAsStrings fields
  | _ => none

/-- The zod `Item` schema as a decoder on JSON values. -/
def decodeItemJson (j : Json) : Option Item :=
  match j with
  | .obj fields => do
    let v ← (jGet fields "minecraftVersion").bind jsonAsString
    let id ← (jGet fields "id").bind jsonAsString
    let count ← (jGet fields "count").bind jsonAsNumber
    let components ← (jGet fields "components").bind jsonAsStringRecord
    some ⟨v, id, count, components⟩
  | _ => none

/-- `JSON.stringify(document.item)` at the value level: the object the
serializer walks, fields in property order. -/
def serializeItem (item : Item) : Json :=
  Json.obj
    [("minecraftVersion", Json.str item.minecraftVersion),
     ("id", Json.str item.id),
     ("count", Json.num item.count),
     ("components", Json.obj (item.components.map (fun kv => (kv.1, Json.str kv.2))))]

/-! ## `src/shared/proto.ts` — the message schemas

`ClientMessages = GetItemTextureMessage.or(UpdateItemMessage)
.or(ReadyMessage).or(GetAnyResourceMessage)` and
`ServerMessages = ItemTextureResponseMessage.or(UpdateItemMessage)
.or(UpdateMinecraftVersionsMessage).or(AnyResourceResponseMessage)
.or(UpdateItemComponentsMessage)`; a zod union tries its members in
order, each member checks its `type` literal and payload shape and strips
unknown keys. -/

inductive ClientMsg where
  | getItemTexture (item : Item)
  | updateItem (item : Option Item)
  | ready
  | getResource (version resource : String)
deriving DecidableEq, Repr

inductive ServerMsg where
  | itemTexture (item : Item) (texture : String)
  | updateItem (item : Option Item)
  | updateVersions (versions : List String)
  | resource (version resource texture : String)
  | updateItemComponents (components : List String)
deriving DecidableEq, Repr

/-- zod `Item.nullable()`. -/
def decodeItemNullable (j : Json) : Option (Option Item) :=
  match j with
  | .null => some none
  | _ => (decodeItemJson j).map some

/-- Element-wise traversal of an array's entries, each required to be a
string. -/
def jsonElemsAsStrings : List Json → Option (List String)
  | [] => some []
  | v :: rest =>
    match jsonAsString v with
    | some s => (jsonElemsAsStrings rest).map (fun tail => s :: tail)
    | none => none

/-- zod `z.array(z.string())`. -/
def jsonAsStringArray : Json → Option (List String)
  | .arr elems => jsonElemsAsStrings elems
  | _ => none

/-- `GetItemTextureMessage`. -/
def decodeGetItemTexture (j : Json) : Option ClientMsg :=
  match j with
  | .obj fields =>
    match jGet fields "type" with
    | some (Json.str t) =>
      if t = "get-item-texture" then
        ((jGet fields "item").bind decodeItemJson).map ClientMsg.getItemTexture
      else none
    | _ => none
  | _ => none

/-- `UpdateItemMessage`, client direction. -/
def decodeUpdateItemClient (j : Json) : Option ClientMsg :=
  match j with
  | .obj fields =>
    match jGet fields "type" with
    | some (Json.str t) =>
      if t = "update-item" then
        ((jGet fields "item").bind decodeItemNullable).map ClientMsg.updateItem
      else none
    | _ => none
  | _ => none

/-- `ReadyMessage`. -/
def decodeReady (j : Json) : Option ClientMsg :=
  match j with
  | .obj fields =>
    match jGet fields "type" with
    | some (Json.str t) => if t = "ready" then some ClientMsg.ready else none
    | _ => none
  | _ => none

/-- `GetAnyResourceMessage`. -/
def decodeGetResource (j : Json) : Option ClientMsg :=
  match j with
  | .obj fields =>
    match jGet fields "type" with
    | some (Json.str t) =>
      if t = "get-resource" then do
        let v ← (jGet fields "version").bind jsonAsString
        let r ← (jGet fields "resource").bind jsonAsString
        some (ClientMsg.getResource v r)
      else none
    | _ => none
  | _ => none

/-- `ClientMessages.safeParse`: the zod union over the four client
message shapes, tried in declaration order. -/
def decodeClientMessages (j : Json) : Option ClientMsg :=
  (decodeGetItemTexture j).orElse fun _ =>
  (decodeUpdateItemClient j).orElse fun _ =>
  (decodeReady j).orElse fun _ =>
  decodeGetResource j

/-- `ItemTextureResponseMessage`. -/
def decodeItemTextureResponse (j : Json) : Option ServerMsg :=
  match j with
  | .obj fields =>
    match jGet fields "type" with
    | some (Json.str t) =>
      if t = "item-texture" then do
        let item ← (jGet fields "item").bind decodeItemJson
        let texture ← (jGet fields "texture").bind jsonAsString
        some (ServerMsg.itemTexture item texture)
      else none
    | _ => none
  | _ => none

/-- `UpdateItemMessage`, server direction. -/
def decodeUpdateItemServer (j : Json) : Option ServerMsg :=
  match j with
  | .obj fields =>
    match jGet fields "type" with
    | some (Json.str t) =>
      if t = "update-item" then
        ((jGet fields "item").bind decodeItemNullable).map ServerMsg.updateItem
      else none
    | _ => none
  | _ => none

/-- `UpdateMinecraftVersionsMessage`. -/
def decodeUpdateVersions (j : Json) : Option ServerMsg :=
  match j with
  | .obj fields =>
    match jGet fields "type" with
    | some (Json.str t) =>
      if t = "update-versions" then
        ((jGet fields "versions").bind jsonAsStringArray).map ServerMsg.updateVersions
      else none
    | _ => none
  | _ => none

/-- `AnyResourceResponseMessage`. -/
def decodeResourceResponse (j : Json) : Option ServerMsg :=
  match j with
  | .obj fields =>
    match jGet fields "type" with
    | some (Json.str t) =>
      if t = "resource" then do
        let v ← (jGet fields "version").bind jsonAsString
        let r ← (jGet fields "resource").bind jsonAsString
        let texture ← (jGet fields "texture").bind jsonAsString
        some (ServerMsg.resource v r texture)
      else none
    | _ => none
  | _ => none

/-- `UpdateItemComponentsMessage`. -/
def decodeUpdateItemComponents (j : Json) : Option ServerMsg :=
  match j with
  | .obj fields =>
    match jGet fields "type" with
    | some (Json.str t) =>
      if t = "update-item-components" then
        ((jGet fields "components").bind jsonAsStringArray).map ServerMsg.updateItemComponents
      else none
    | _ => none
  | _ => none

/-- `ServerMessages.safeParse`: the zod union over the five server
message shapes, tried in declaration order. -/
def decodeServerMessages (j : Json) : Option ServerMsg :=
  (decodeItemTextureResponse j).orElse fun _ =>
  (decodeUpdateItemServer j).orElse fun _ =>
  (decodeUpdateVersions j).orElse fun _ =>
  (decodeResourceResponse j).orElse fun _ =>
  decodeUpdateItemComponents j

/-! ## The two message handlers

Host side: the `webviewPanel.webview.onDidReceiveMessage` callback of
`resolveCustomEditor` (`src/item-editor.ts` lines 326-403). Its awaited
filesystem and process work is abstracted into an environment: a `none`
result models a rejected promise (resolution failure), after which the
handler never reaches its `postMessage`. -/

structure ServerEnv where
  /-- `getMinecraftVersions()` (the versions folder scan). -/
  versions : List String
  /-- `ensureUnpackedVersion` + `getUnpackedItemResource` + `fs.readFile`
  base64, per (version, id); `none` = some step rejected. -/
  itemTexture : String → String → Option String
  /-- `ensureUnpackedVersion` + `getUnpackedResource` + `fs.readFile`
  base64, per (version, resource); `none` = some step rejected. -/
  resource : String → String → Option String
  /-- `getItemComponents(version)`; `none` = read/parse rejected. -/
  itemComponents : String → Option (List String)

/-- The host-side message handler: given the current document item and an
incoming raw message, produce the new document item and the list of
`postMessage` responses, in order. A message failing `safeParse` is
dropped. -/
def handleClientMessage (env : ServerEnv) (doc : Option Item) (data : Json) :
    Option Item × List ServerMsg :=
  match decodeClientMessages data with
  | none => (doc, [])
  | some msg =>
    match msg with
    | .getItemTexture item =>
      if item.minecraftVersion ∈ env.versions then
        match env.itemTexture item.minecraftVersion item.id with
        | some content => (doc, [.itemTexture item content])
        | none => (doc, [])
      else (doc, [])
    | .getResource v r =>
      if v ∈ env.versions then
        match env.resource v r with
        | some content => (doc, [.resource v r content])
        | none => (doc, [])
      else (doc, [])
    | .updateItem oitem =>
      match oitem with
      | some item =>
        (some item,
          match env.itemComponents item.minecraftVersion with
          | some comps => [.updateItemComponents comps]
          | none => [])
      | none => (doc, [])
    | .ready =>
      (doc,
        [.updateItem doc, .updateVersions env.versions] ++
        (match doc with
         | some item =>
           -- `document.item?.minecraftVersion` is a truthiness test:
           -- the empty string is falsy and skips the components message
           if item.minecraftVersion ≠ "" then
             match env.itemComponents item.minecraftVersion with
             | some comps => [.updateItemComponents comps]
             | none => []
           else []
         | none => []))

/-- The rendering-side React state of `App` (`src/item-editor/app/App.tsx`)
touched by the `window` message listener. -/
structure ClientState where
  minecraftVersions : List String
  itemTextures : List (String × String)
  resources : List (String × String)
  editedItem : Option Item
  itemComponents : List String
deriving DecidableEq, Repr

/-- JS record update `m[k] = v` / spread-update `{ ...m, [k]: v }`:
replace the value at an existing key in place, else append the new key. -/
def recordSet {κ α : Type} [DecidableEq κ] (m : List (κ × α)) (k : κ) (v : α) :
    List (κ × α) :=
  match m with
  | [] => [(k, v)]
  | (k', v') :: rest =>
    if k' = k then (k', v) :: rest else (k', v') :: recordSet rest k v

/-- The rendering-side `window` message listener: parse with
`ServerMessages.safeParse`, drop on failure, otherwise apply the matching
state update (texture/resource responses are keyed into the caches by
re-deriving the cache key). -/
def handleServerMessage (st : ClientState) (data : Json) : ClientState :=
  match decodeServerMessages data with
  | none => st
  | some msg =>
    match msg with
    | .updateItem item => { st with editedItem := item }
    | .updateVersions versions => { st with minecraftVersions := versions }
    | .itemTexture item texture =>
      { st with itemTextures := recordSet st.itemTextures (hashItemTexture item) texture }
    | .resource v r texture =>
      { st with resources := recordSet st.resources (hashResource v r) texture }
    | .updateItemComponents comps => { st with itemComponents := comps }

/-! ## `src/item-editor.ts` lines 98-191 — the unpack task machinery

`runningUnpackTasks` is a `Record<string, Promise<void>>` keyed by
version; `ensureUnpackedVersion` awaits `exists(unpackedPath)`, then in
one synchronous slot checks the table, possibly starts `unpackVersion`
and stores the task, attaching `.finally(() => delete
runningUnpackTasks[version])`. `unpackVersion` first creates the bundle
directory tree (`fs.mkdir(unpackedPath, { recursive: true })` and two
subfolders), then extracts the archive, then spawns the data generator
and resolves in `child.once("exit", ...)` — whatever the exit code is.

The single-threaded event loop is modelled by a transition system: each
step is one scheduler slot. A call to `ensureUnpackedVersion` is two
slots: the `exists()` sample, and the resume that runs the remaining
synchronous body (`ensureUnpackedResume`). The running task's externally
visible transitions are the completion of its directory creation and its
settlement (the `finally`). -/

/-- What one call to `ensureUnpackedVersion` returns: `immediate` is the
bare `return` after a positive `exists()` check, `joined` the early
return of the already-running task, `started` a freshly started task. -/
inductive EnsureResult where
  | immediate
  | joined (t : Nat)
  | started (t : Nat)
deriving DecidableEq, Repr

/-- The `runningUnpackTasks` record: version to task id, keys unique. -/
abbrev TaskTable : Type := List (String × Nat)

/-- `runningUnpackTasks[version]` lookup. -/
def lookupTask (tbl : TaskTable) (v : String) : Option Nat :=
  jGet tbl v

/-- `delete runningUnpackTasks[version]` (the `finally`). -/
def removeTask (tbl : TaskTable) (v : String) : TaskTable :=
  List.filter (fun e => e.1 ≠ v) tbl

/-- `runningUnpackTasks[version] = result` (only reached with the key
absent). -/
def insertTask (tbl : TaskTable) (v : String) (t : Nat) : TaskTable :=
  tbl ++ [(v, t)]

/-- The synchronous tail of `ensureUnpackedVersion` (lines 184-190),
resumed after `await exists(unpackedPath)` produced `sampledExists`:
return immediately if the directory was seen, else join a running task,
else start task `fresh` and store it. Returns the call's result and the
updated table. -/
def ensureUnpackedResume (sampledExists : Bool) (tbl : TaskTable) (v : String)
    (fresh : Nat) : EnsureResult × TaskTable :=
  if sampledExists then (.immediate, tbl)
  else
    match lookupTask tbl v with
    | some t => (.joined t, tbl)
    | none => (.started fresh, insertTask tbl v fresh)

/-- Global state of the unpack subsystem: which version bundle
directories exist on disk, the live-task table, the calls that have
sampled `exists()` and await resumption, and the next fresh task id. -/
structure UnpackSys where
  dirs : List String
  table : TaskTable
  pending : List (String × Bool)
  nextId : Nat
deriving DecidableEq, Repr

/-- The `exists(getUnpackedVersionDirectory(version))` probe. -/
def existsCheck (dirs : List String) (v : String) : Bool :=
  decide (v ∈ dirs)

/-- One scheduler slot of the unpack subsystem. -/
inductive UnpackStep : UnpackSys → UnpackSys → Prop
  /-- A caller enters `ensureUnpackedVersion v`: its `await
  exists(unpackedPath)` resolves against the current disk state. -/
  | sample (s : UnpackSys) (v : String) :
      UnpackStep s { s with pending := s.pending ++ [(v, existsCheck s.dirs v)] }
  /-- A pending caller resumes and runs the synchronous remainder of
  `ensureUnpackedVersion`. -/
  | resume (s : UnpackSys) (v : String) (b : Bool)
      (h : (v, b) ∈ s.pending) :
      UnpackStep s
        { s with
          pending := s.pending.erase (v, b)
          table := (ensureUnpackedResume b s.table v s.nextId).2
          nextId := s.nextId + 1 }
  /-- The running unpack task for `v` completes its
  `fs.mkdir(unpackedPath, { recursive: true })`: the bundle directory now
  exists on disk. -/
  | mkdirDone (s : UnpackSys) (v : String) (t : Nat)
      (h : lookupTask s.table v = some t) :
      UnpackStep s { s with dirs := v :: s.dirs }
  /-- The running unpack task for `v` settles — completion and failure
  alike run the `finally` that deletes the table entry; nothing on disk
  is rolled back. -/
  | settle (s : UnpackSys) (v : String) (t : Nat)
      (h : lookupTask s.table v = some t) :
      UnpackStep s { s with table := removeTask s.table v }

/-- The initial state: nothing unpacked, no tasks. -/
def initUnpackSys : UnpackSys :=
  { dirs := [], table := [], pending := [], nextId := 0 }

/-- States reachable by the event loop from start-up. -/
inductive UnpackReachable : UnpackSys → Prop
  | init : UnpackReachable initUnpackSys
  | step {s s' : UnpackSys} (hr : UnpackReachable s) (hs : UnpackStep s s') :
      UnpackReachable s'

/-- The outcome-relevant environment of one `unpackVersion` run: whether
the directory creation and archive extraction succeed, and the data
generator's exit code. -/
structure UnpackEnv where
  mkdirOk : Bool
  extractOk : Bool
  generatorExitCode : Int

inductive UnpackError where
  | mkdirFailed
  | extractFailed
deriving DecidableEq, Repr

/-- The settlement value of the promise returned by `unpackVersion`
(lines 100-178): a `mkdir` or extraction rejection propagates out of the
`async` function; the data-generator stage resolves in
`child.once("exit", () => { clearInterval(interval); res(); })`, so the
exit code — zero or not — never rejects the task. (A rejection of
`getDatagenRunCommand` inside the promise executor would leave the
promise unsettled; unsettled runs are not modelled.) -/
def unpackVersionResult (env : UnpackEnv) : Except UnpackError Unit :=
  if !env.mkdirOk then .error .mkdirFailed
  else if !env.extractOk then .error .extractFailed
  else .ok ()

/-! ## `src/item-editor/util/mcbitmapfont.ts` — the bitmap font builder

`MinecraftBitmapFont.generate()` walks `data.providers` in manifest
order, maps each provider's `file` through the static `MC2PAGE` table to
a render-page index, and fills a `chars` record keyed by character code.
Only the page textures' widths matter to the glyph table, so the three
atlas textures are modelled by `texWidths : Fin 3 → Nat`. Character rows
are strings; JS `charCodeAt` (UTF-16 units) is modelled as the code
point, which agrees on the Basic Multilingual Plane. -/

structure MCFontProvider where
  file : String
  /-- `height?` — `provider.height ?? 8` supplies the default. -/
  height : Option Nat
  ascent : Int
  chars : List String
deriving Repr

structure MCFontData where
  providers : List MCFontProvider
deriving Repr

/-- One entry of the `chars : Record<string, RawCharData>` table (the
`id` is the record key and is kept outside). -/
structure RawCharData where
  page : Fin 3
  x : Nat
  y : Nat
  width : Nat
  height : Nat
  letter : Char
  xAdvance : Nat
  yOffset : Int
  xOffset : Int
deriving DecidableEq, Repr

/-- The static `MC2PAGE` mapping from provider file name to render page;
an unrecognized name yields `undefined` in the source. -/
def MC2PAGE (file : String) : Option (Fin 3) :=
  if file = "minecraft:font/ascii.png" then some 0
  else if file = "minecraft:font/accented.png" then some 1
  else if file = "minecraft:font/nonlatin_european.png" then some 2
  else none

/-- The glyph record built by `generate()`. -/
abbrev GlyphTable : Type := List (Nat × RawCharData)

/-- The two nested row/column loops of `generate()` for one provider
whose page resolved: `width = Math.floor(textures[page]!.width /
provider.chars[i]!.length)`, then `chars[id] = {...}` for each character
of each row. -/
def generateProviderChars (texWidths : Fin 3 → Nat) (page : Fin 3) (height : Nat)
    (rows : List String) (tbl : GlyphTable) : GlyphTable :=
  rows.enum.foldl
    (fun tbl irow =>
      let width := texWidths page / irow.2.length
      irow.2.toList.enum.foldl
        (fun tbl jc =>
          recordSet tbl jc.2.toNat
            { page := page, x := jc.1 * width, y := irow.1 * height,
              width := width, height := height, letter := jc.2,
              xAdvance := width, yOffset := 0, xOffset := 0 })
        tbl)
    tbl

/-- `MinecraftBitmapFont.generate()` (lines 30-65 of
`mcbitmapfont.ts`): fold the providers in manifest order over an empty
`chars` record. For a provider whose `file` is not in `MC2PAGE`, the
first row's `textures[page]!.width` access throws a `TypeError`
(modelled as `.error`); a provider with no rows never performs that
access. -/
def MinecraftBitmapFont.generate (texWidths : Fin 3 → Nat) (data : MCFontData) :
    Except String GlyphTable :=
  data.providers.foldlM
    (fun tbl p =>
      match MC2PAGE p.file with
      | some page => .ok (generateProviderChars texWidths page (p.height.getD 8) p.chars tbl)
      | none =>
        if p.chars.isEmpty then .ok tbl
        else .error "TypeError: cannot read width of textures[undefined]")
    []

/-! The reference definition, written from the claim: providers are
processed in manifest order and rows in order; a row of `N` characters
against a page of width `W` assigns every character
`cellWidth = ⌊W / N⌋`, position `(column * cellWidth, rowIndex *
rowHeight)` with `rowHeight` defaulting to 8, `advance = cellWidth`,
zero offsets and no kerning; the last assignment for a character code
wins. -/

/-- One row of `N` characters against a page of width `W`: every
character gets `cellWidth = ⌊W / N⌋`, position `(column * cellWidth,
rowIndex * rowHeight)`, `advance = cellWidth`, zero offsets. -/
def specRowAssignments (page : Fin 3) (cellWidth rowHeight rowIndex : Nat)
    (row : String) : List (Nat × RawCharData) :=
  row.toList.enum.map
    (fun jc =>
      (jc.2.toNat,
       { page := page, x := jc.1 * cellWidth, y := rowIndex * rowHeight,
         width := cellWidth, height := rowHeight, letter := jc.2,
         xAdvance := cellWidth, yOffset := 0, xOffset := 0 }))

/-- One provider's assignments: rows in order, `rowHeight` defaulting to
the fixed constant 8 when the provider declares none. -/
def specProviderAssignments (texWidths : Fin 3 → Nat) (p : MCFontProvider) :
    List (Nat × RawCharData) :=
  match MC2PAGE p.file with
  | some page =>
    p.chars.enum.flatMap
      (fun irow =>
        specRowAssignments page (texWidths page / irow.2.length)
          (p.height.getD 8) irow.1 irow.2)
  | none => []

/-- The sequence of glyph assignments in processing order, per the
claim's wording: providers in manifest order, rows in order. -/
def specGlyphAssignments (texWidths : Fin 3 → Nat) (data : MCFontData) :
    List (Nat × RawCharData) :=
  data.providers.flatMap (specProviderAssignments texWidths)

/-- "The last assignment in processing order wins": the glyph for a
character code is the last entry for that code in the assignment
sequence. -/
def lastAssignment : List (Nat × RawCharData) → Nat → Option RawCharData
  | [], _ => none
  | a :: rest, code =>
    match lastAssignment rest code with
    | some d => some d
    | none => if a.1 = code then some a.2 else none

/-! ## `src/item-editor/util/tooltip.ts` — tooltip layout

`buildTooltip(lines)` walks each line's `MCText` tree with an explicit
FIFO queue (`parts.shift()` from the front, `parts.push(...)` to the
back), placing one `PIXI.Text` run per leaf. The text metrics of the
rendering library are abstracted as `mW`/`mH : String → JsVal → Nat`
(run text and fill style to rendered width/height; the other style
fields `fontFamily`/`fontSize` are the fixed `DEFAULT_TEXT_STYLE`).

The queue mixes value kinds in the source: the default is a
`PIXI.Color`, `toPIXIColor` produces a `PIXI.Color` or — for the two
inputs that hit the `color in DEFAULT_TEXT_STYLE` branch, whose
`MINECRAFT_COLORS` lookup misses — `undefined`, while a parent node's
own `color` string is pushed raw to its children. `JsVal` covers the
three cases. -/

mutual
/-- The `MCText` union: a leaf string, an array, or a record with `text`,
optional `color` and optional `extra` children (the other record fields
are never read by `buildTooltip`). -/
inductive MCText where
  | str (s : String)
  | list (xs : MCTextList)
  | node (text : String) (color : Option String) (extra : Option MCTextList)
inductive MCTextList where
  | nil
  | cons (head : MCText) (tail : MCTextList)
end

def MCTextList.toList : MCTextList → List MCText
  | .nil => []
  | .cons h t => h :: t.toList

mutual
/-- Number of `MCText` nodes; each loop iteration of `buildTooltip`
consumes exactly one node, so this bounds the iteration count. -/
def MCText.nodeCount : MCText → Nat
  | .str _ => 1
  | .list xs => 1 + xs.nodeCountList
  | .node _ _ none => 1
  | .node _ _ (some xs) => 1 + xs.nodeCountList
def MCTextList.nodeCountList : MCTextList → Nat
  | .nil => 0
  | .cons h t => h.nodeCount + t.nodeCountList
end

/-- A fill value travelling through the layout queue. -/
inductive JsVal where
  | pixiColor (css : String)
  | rawStr (s : String)
  | undef
deriving DecidableEq, Repr

def MINECRAFT_COLORS : List (String × String) :=
  [("black", "#000000"), ("dark_blue", "#0000AA"), ("dark_green", "#00AA00"),
   ("dark_aqua", "#00AAAA"), ("dark_red", "#AA0000"), ("dark_purple", "#AA00AA"),
   ("gold", "#FFAA00"), ("gray", "#AAAAAA"), ("dark_gray", "#555555"),
   ("blue", "#5555FF"), ("green", "#55FF55"), ("aqua", "#55FFFF"),
   ("red", "#FF5555"), ("light_purple", "#FF55FF"), ("yellow", "#FFFF55"),
   ("white", "#FFFFFF")]

/-- `toPIXIColor`: the source tests `color in DEFAULT_TEXT_STYLE` — the
style object's keys are `fontFamily` and `fontSize` — and only then
reads `MINECRAFT_COLORS[color]!`, which is `undefined` for both; any
other input is wrapped as a `PIXI.Color`. -/
def toPIXIColor (color : String) : JsVal :=
  if color = "fontFamily" ∨ color = "fontSize" then
    match jGet MINECRAFT_COLORS color with
    | some css => .pixiColor css
    | none => .undef
  else .pixiColor color

def TOOLTIP_DEFAULT_TEXT_COLOR : JsVal := .pixiColor "#ffffff"

def TOOLTIP_PADDING_OUT_X : Nat := 8
def TOOLTIP_PADDING_OUT_Y : Nat := 8
def TOOLTIP_PADDING_INNER_X : Nat := 8
def TOOLTIP_PADDING_INNER_Y : Nat := 8

/-- One placed `PIXI.Text` run. -/
structure TextRun where
  text : String
  fill : JsVal
  x : Nat
  y : Nat
deriving DecidableEq, Repr

/-- The tooltip container built by `buildTooltip`: the placed runs, the
text container offset, the background `rect` and the accent `roundRect`
geometry. -/
structure TooltipLayout where
  runs : List TextRun
  textX : Nat
  textY : Nat
  bgW : Nat
  bgH : Nat
  borderX : Nat
  borderY : Nat
  borderW : Nat
  borderH : Nat
deriving DecidableEq, Repr

/-- `parts.push(...top.extra.map((child) => [child, c]))`. -/
def enqueueChildren (xs : MCTextList) (c : JsVal) : List (MCText × JsVal) :=
  xs.toList.map (fun t => (t, c))

/-- The `while (parts.length > 0)` loop of one line, with an explicit
fuel argument (structural recursion); each iteration shifts one entry
and enqueues only that entry's proper children, so `fuel =` total node
count of the queue suffices (`runLineLoopF_fuel_sufficient` below).
State: current horizontal cursor, the `textHeight` register, the line's
fixed `currentY`, and the runs placed so far. Note the source's
`textHeight = Math.max(0, text.height)` — the register is overwritten,
not accumulated. -/
def runLineLoopF (mW mH : String → JsVal → Nat) :
    Nat → List (MCText × JsVal) → Nat → Nat → Nat → List TextRun →
    Nat × Nat × List TextRun
  | 0, _, currentX, textHeight, _, runs => (currentX, textHeight, runs)
  | _ + 1, [], currentX, textHeight, _, runs => (currentX, textHeight, runs)
  | fuel + 1, (top, parentColor) :: rest, currentX, textHeight, currentY, runs =>
    match top with
    | .list xs =>
      runLineLoopF mW mH fuel (rest ++ enqueueChildren xs parentColor)
        currentX textHeight currentY runs
    | .str s =>
      runLineLoopF mW mH fuel rest (currentX + mW s parentColor)
        (max 0 (mH s parentColor)) currentY
        (runs ++ [{ text := s, fill := parentColor, x := currentX, y := currentY }])
    | .node text color extra =>
      let fill :=
        match color with
        | some c => if c ≠ "" then toPIXIColor c else parentColor
        | none => parentColor
      let childColor :=
        match color with
        | some c => JsVal.rawStr c
        | none => parentColor
      let rest' :=
        match extra with
        | some xs => rest ++ enqueueChildren xs childColor
        | none => rest
      runLineLoopF mW mH fuel rest' (currentX + mW text fill)
        (max 0 (mH text fill)) currentY
        (runs ++ [{ text := text, fill := fill, x := currentX, y := currentY }])

/-- Total node count of a queue. -/
def queueNodeCount (q : List (MCText × JsVal)) : Nat :=
  (q.map (fun p => p.1.nodeCount)).sum

/-- The per-line layout loop, run to exhaustion of its queue. -/
def runLineLoop (mW mH : String → JsVal → Nat) (q : List (MCText × JsVal))
    (currentX textHeight currentY : Nat) (runs : List TextRun) :
    Nat × Nat × List TextRun :=
  runLineLoopF mW mH (queueNodeCount q) q currentX textHeight currentY runs

/-- `buildTooltip(lines)` (`tooltip.ts` lines 83-164): lay out each line
with the queue loop seeded by `[[line, TOOLTIP_DEFAULT_TEXT_COLOR]]`,
then track `maxWidth = Math.max(maxWidth, currentX)` and `currentY +=
textHeight`, and emit the background rect, the accent round-rect and the
offset text container. -/
def buildTooltip (mW mH : String → JsVal → Nat) (lines : List MCText) :
    TooltipLayout :=
  let layout :=
    lines.foldl
      (fun acc line =>
        let (currentY, maxWidth, runs) := acc
        let (currentX, textHeight, runs') :=
          runLineLoop mW mH [(line, TOOLTIP_DEFAULT_TEXT_COLOR)] 0 0 currentY runs
        (currentY + textHeight, max maxWidth currentX, runs'))
      (0, 0, [])
  let (currentY, maxWidth, runs) := layout
  { runs := runs
    textX := TOOLTIP_PADDING_OUT_X + TOOLTIP_PADDING_INNER_X
    textY := TOOLTIP_PADDING_OUT_Y + TOOLTIP_PADDING_INNER_Y
    bgW := maxWidth + TOOLTIP_PADDING_OUT_X * 2 + TOOLTIP_PADDING_INNER_X * 2
    bgH := currentY + TOOLTIP_PADDING_OUT_Y * 2 + TOOLTIP_PADDING_INNER_Y * 2
    borderX := TOOLTIP_PADDING_OUT_X
    borderY := TOOLTIP_PADDING_OUT_Y
    borderW := maxWidth + TOOLTIP_PADDING_OUT_X + TOOLTIP_PADDING_INNER_X
    borderH := currentY + TOOLTIP_PADDING_OUT_Y + TOOLTIP_PADDING_INNER_Y }

/-- The conventional direct item-texture location for `(version, id)`:
`textures/item/<id minus namespace>.png` in the version bundle. -/
def itemSpritePath (dotMinecraft version id : String) : String :=
  getUnpackedVersionDirectory dotMinecraft version ++ "/textures/item/" ++
    jsSubstringAfterFirst ':' id ++ ".png"

/-- The block-model descriptor location for `(version, id)`. -/
def blockModelPath (dotMinecraft version id : String) : String :=
  getUnpackedVersionDirectory dotMinecraft version ++ "/models/block/" ++
    jsSubstringAfterFirst ':' id ++ ".json"

/-- The block-texture location for a (namespace-stripped) texture
reference. -/
def blockTexturePath (dotMinecraft version ref : String) : String :=
  getUnpackedVersionDirectory dotMinecraft version ++ "/textures/block/" ++
    stripMinecraftNamespace ref ++ ".png"

/-! ## Concrete example inputs used by the witness theorems -/

/-- A filesystem where every probe succeeds: the direct sprite exists. -/
def fsSpriteEx : ItemFS :=
  { fileExists := fun _ => true, readJson := fun _ => .absent }

/-- No sprite file; the block model declares a `side` texture (and
another slot) — `{textures: {side: "block/foo", end: "block/qux"}}`. -/
def fsSideModelEx : ItemFS :=
  { fileExists := fun _ => false
    readJson := fun _ =>
      .content (Json.obj
        [("parent", Json.str "minecraft:block/cube_all"),
         ("textures", Json.obj
           [("side", Json.str "block/foo"), ("end", Json.str "block/qux")])]) }

/-- No sprite file; the block model has no `side` slot, so the first
declared texture value is used. -/
def fsFirstModelEx : ItemFS :=
  { fileExists := fun _ => false
    readJson := fun _ =>
      .content (Json.obj
        [("textures", Json.obj
           [("all", Json.str "block/bar"), ("top", Json.str "block/baz")])]) }

/-- A concrete item. -/
def itemEx : Item := ⟨"1.21", "minecraft:stone", 1, []⟩

/-- A caller has entered `ensureUnpackedVersion "1.21"` on a cold start
and sampled `exists()` as false. -/
def unpackSysSampled : UnpackSys :=
  { dirs := [], table := [], pending := [("1.21", false)], nextId := 0 }

/-- The caller resumed and started unpack task 0 for `"1.21"`; the task
has not yet created the bundle directory. -/
def unpackSysStarted : UnpackSys :=
  { dirs := [], table := [("1.21", 0)], pending := [], nextId := 1 }

/-- Task 0 completed its `fs.mkdir(unpackedPath)`: the bundle directory
now exists while the task is still live. -/
def unpackSysMkdirDone : UnpackSys :=
  { dirs := ["1.21"], table := [("1.21", 0)], pending := [], nextId := 1 }

/-- Task 0 settled (for instance its archive extraction rejected): the
`finally` cleared the table entry; the bundle directory remains. -/
def unpackSysFailed : UnpackSys :=
  { dirs := ["1.21"], table := [], pending := [], nextId := 1 }

/-- A concrete host-side environment. -/
def serverEnvEx : ServerEnv :=
  { versions := ["1.21"]
    itemTexture := fun _ _ => none
    resource := fun _ _ => none
    itemComponents := fun _ => none }

/-- A concrete rendering-side state. -/
def clientStateEx : ClientState :=
  { minecraftVersions := ["1.21"]
    itemTextures := [("1.21##minecraft:stone", "AAAA")]
    resources := []
    editedItem := some itemEx
    itemComponents := [] }

/-- A concrete font manifest: an ascii provider with default row height
and one row `"ab"`, then an accented provider with row height 12 whose
row `"a"` reassigns the character `a`. -/
def fontDataEx : MCFontData :=
  { providers :=
      [⟨"minecraft:font/ascii.png", none, 7, ["ab"]⟩,
       ⟨"minecraft:font/accented.png", some 12, 7, ["a"]⟩] }

/-- Concrete page widths: the ascii atlas is 16 wide, the others 9. -/
def texWidthsEx : Fin 3 → Nat := fun i => if i = 0 then 16 else 9

/-- The glyph table `generate()` builds from `fontDataEx`: `b` keeps its
ascii cell (cellWidth 16/2 = 8, column 1), while the accented provider's
later row overwrote `a` in place (cellWidth 9/1 = 9, row height 12). -/
def fontTableEx : GlyphTable :=
  [(97, ⟨1, 0, 0, 9, 12, 'a', 9, 0, 0⟩),
   (98, ⟨0, 8, 0, 8, 8, 'b', 8, 0, 0⟩)]

/-- A concrete text-width measure: `"tall"` renders 40 wide, anything
else 20. -/
def mWex : String → JsVal → Nat := fun s _ => if s = "tall" then 40 else 20

/-- A concrete text-height measure: `"tall"` renders 30 high, anything
else 20. -/
def mHex : String → JsVal → Nat := fun s _ => if s = "tall" then 30 else 20

/-- One tooltip line holding two runs: first a 30-high run, then a
20-high run. -/
def tooltipLinesEx : List MCText :=
  [MCText.list (.cons (.str "tall") (.cons (.str "low") .nil))]

/-! A first sanity theorem (the C10 area): the cache keys are plain
string concatenation with the `##` separator and are not injective. -/

/-- C10: the resource-key functions are not injective: distinct input
pairs can share one cache key, because the key is plain concatenation
with the separator `##` and inputs may themselves contain `##`; the same
holds for `hashItemTexture` over distinct items. -/
theorem hash_functions_not_injective :
    (∃ v r v' r', (v, r) ≠ (v', r') ∧ hashResource v r = hashResource v' r') ∧
    (∃ a b : Item, a ≠ b ∧ hashItemTexture a = hashItemTexture b) := by
  constructor
  · exact ⟨"a##b", "c", "a", "b##c", by decide, by decide⟩
  · exact ⟨⟨"a##b", "c", 1, []⟩, ⟨"a", "b##c", 1, []⟩, by decide, by decide⟩

/-- C3: item-sprite resolution strips the namespace prefix from `itemId`
and returns the direct item-texture path whenever that file exists; only
when it is absent does it read the block-model descriptor and pick a
texture reference with precedence "`side` slot if present, else the
first declared texture value"; the chosen reference is namespace-stripped
and resolved under the block-texture directory. -/
theorem getUnpackedItemResource_resolution_order :
    (∀ (fs : ItemFS) (dotMinecraft version id : String),
      fs.fileExists (itemSpritePath dotMinecraft version id) = true →
      getUnpackedItemResource fs dotMinecraft version id =
        .ok (itemSpritePath dotMinecraft version id)) ∧
    (∀ (fs : ItemFS) (dotMinecraft version id : String)
       (fields texs : List (String × Json)) (s : String),
      fs.fileExists (itemSpritePath dotMinecraft version id) = false →
      fs.readJson (blockModelPath dotMinecraft version id) = .content (Json.obj fields) →
      jGet fields "textures" = some (Json.obj texs) →
      jGet texs "side" = some (Json.str s) →
      getUnpackedItemResource fs dotMinecraft version id =
        .ok (blockTexturePath dotMinecraft version s)) ∧
    (∀ (fs : ItemFS) (dotMinecraft version id : String)
       (fields texs : List (String × Json)) (k s : String)
       (rest : List (String × Json)),
      fs.fileExists (itemSpritePath dotMinecraft version id) = false →
      fs.readJson (blockModelPath dotMinecraft version id) = .content (Json.obj fields) →
      jGet fields "textures" = some (Json.obj texs) →
      jGet texs "side" = none →
      texs = (k, Json.str s) :: rest →
      getUnpackedItemResource fs dotMinecraft version id =
        .ok (blockTexturePath dotMinecraft version s)) := by
  refine ⟨?_, ?_, ?_⟩
  · intro fs dotMinecraft version id h
    simp [getUnpackedItemResource, itemSpritePath, getUnpackedVersionDirectory] at h ⊢
    simp [h]
  · intro fs dotMinecraft version id fields texs s hnot hread htex hside
    simp [itemSpritePath, blockModelPath, getUnpackedVersionDirectory] at hnot hread
    simp [getUnpackedItemResource, getUnpackedVersionDirectory, hnot, hread, htex, hside,
      blockTexturePath]
  · intro fs dotMinecraft version id fields texs k s rest hnot hread htex hside htexs
    subst htexs
    simp [itemSpritePath, blockModelPath, getUnpackedVersionDirectory] at hnot hread
    simp [getUnpackedItemResource, getUnpackedVersionDirectory, hnot, hread, htex, hside,
      blockTexturePath]

/-- C8: resolution fails with the not-found error exactly when neither
the direct sprite file nor the block-model descriptor exists for the
`(version, itemId)` pair. -/
theorem getUnpackedItemResource_notFound_iff :
    ∀ (fs : ItemFS) (dotMinecraft version id : String),
      getUnpackedItemResource fs dotMinecraft version id =
        .error .resourceNotFound ↔
      (fs.fileExists (itemSpritePath dotMinecraft version id) = false ∧
       fs.readJson (blockModelPath dotMinecraft version id) = .absent) := by
  intro fs dotMinecraft version id
  simp only [getUnpackedItemResource, itemSpritePath, blockModelPath,
    getUnpackedVersionDirectory]
  split
  · rename_i hfe
    simp [hfe]
  · rename_i hfe
    simp only [Bool.not_eq_true] at hfe
    simp only [hfe, true_and]
    split <;> try simp_all
    · rename_i j heq
      cases j <;> try simp_all
      rename_i fields
      cases hj : jGet fields "textures" <;> try simp_all
      rename_i jv
      cases jv <;> try simp_all
      rename_i texs
      cases hs : jGet texs "side" <;> try simp_all
      · cases texs <;> try simp_all
        rename_i kv rest
        obtain ⟨k1, v1⟩ := kv
        cases v1 <;> simp_all
      · rename_i sv
        cases sv <;> simp_all

/-- Witness for C3 at concrete inputs: a present sprite short-circuits;
`{textures:{side:"block/foo", end:"block/qux"}}` resolves to the `foo`
block texture (not one derived from the `end` slot); without a `side`
slot the first declared value wins. -/
theorem getUnpackedItemResource_resolution_order_witness :
    (fsSpriteEx.fileExists (itemSpritePath "mc" "1.21" "minecraft:stone") = true ∧
      getUnpackedItemResource fsSpriteEx "mc" "1.21" "minecraft:stone" =
        .ok (itemSpritePath "mc" "1.21" "minecraft:stone")) ∧
    (getUnpackedItemResource fsSideModelEx "mc" "1.21" "minecraft:oak_log" =
      .ok "mc/.basalt/unpacked/1.21/textures/block/foo.png") ∧
    (getUnpackedItemResource fsFirstModelEx "mc" "1.21" "minecraft:oak_log" =
      .ok "mc/.basalt/unpacked/1.21/textures/block/bar.png") := by
  refine ⟨⟨rfl, ?_⟩, ?_, ?_⟩
  · exact getUnpackedItemResource_resolution_order.1 fsSpriteEx "mc" "1.21"
      "minecraft:stone" rfl
  · exact getUnpackedItemResource_resolution_order.2.1 fsSideModelEx "mc" "1.21"
      "minecraft:oak_log"
      [("parent", Json.str "minecraft:block/cube_all"),
       ("textures", Json.obj
         [("side", Json.str "block/foo"), ("end", Json.str "block/qux")])]
      [("side", Json.str "block/foo"), ("end", Json.str "block/qux")]
      "block/foo" rfl rfl rfl rfl
  · exact getUnpackedItemResource_resolution_order.2.2 fsFirstModelEx "mc" "1.21"
      "minecraft:oak_log"
      [("textures", Json.obj
         [("all", Json.str "block/bar"), ("top", Json.str "block/baz")])]
      [("all", Json.str "block/bar"), ("top", Json.str "block/baz")]
      "all" "block/bar" [("top", Json.str "block/baz")] rfl rfl rfl rfl rfl

/-- C6: for every parser behavior and item, enchantment detection returns
true iff either (a) the glint-override component is present and parses to
byte 1 — the enchantment list being ignored entirely, including when the
override parses to anything else — or (b) no override is present and the
enchantments component parses to a compound tag with a non-empty entry
list; a component string whose parse throws is treated as "not enchanted"
(the `tryParseSNBT` wrapper converts the throw to `null`). -/
theorem isItemEnchanted_iff :
    ∀ (parseSNBT : SNBTParser) (item : Item),
      isItemEnchanted parseSNBT item = true ↔
      ((∃ s, jGet item.components "minecraft:enchantment_glint_override" = some s ∧
          tryParseSNBT parseSNBT (jsRemoveNewlines s) = some (NBTTag.byte 1)) ∨
       (jGet item.components "minecraft:enchantment_glint_override" = none ∧
        ∃ s entries,
          jGet item.components "minecraft:enchantments" = some s ∧
          tryParseSNBT parseSNBT (jsRemoveNewlines s) = some (NBTTag.compound entries) ∧
          entries ≠ [])) := by
  intro parseSNBT item
  unfold isItemEnchanted
  cases hov : jGet item.components "minecraft:enchantment_glint_override" with
  | some s =>
    cases hp : tryParseSNBT parseSNBT (jsRemoveNewlines s) with
    | none => simp [hp]
    | some tag =>
      cases tag with
      | byte v => simp [hp]
      | compound entries => simp [hp]
      | other => simp [hp]
  | none =>
    cases hen : jGet item.components "minecraft:enchantments" with
    | some s =>
      cases hp : tryParseSNBT parseSNBT (jsRemoveNewlines s) with
      | none => simp [hp]
      | some tag =>
        cases tag with
        | byte v => simp [hp]
        | compound entries =>
          simp [hp, List.length_pos]
        | other => simp [hp]
    | none => simp [hen]

/-- Helper: decoding a record serialized from a string-to-string mapping
gives back exactly that mapping. -/
theorem jsonAsStringRecord_serialize (l : List (String × String)) :
    jsonAsStringRecord (Json.obj (l.map (fun kv => (kv.1, Json.str kv.2)))) =
      some l := by
  induction l with
  | nil => rfl
  | cons kv rest ih =>
    simp only [jsonAsStringRecord, List.map_cons, jsonFieldsAsStrings] at ih ⊢
    simp [jsonAsString, ih]

/-- C9: serializing an `Item` to JSON (as on document save) and parsing
the result back through the `Item` schema (as on document open) yields a
value equal to the original in all four fields; an empty `components`
mapping round-trips to an empty mapping — the serialized object carries
a `components` field holding an empty object, not null or an absent
field. -/
theorem item_json_roundtrip :
    (∀ item : Item, decodeItemJson (serializeItem item) = some item) ∧
    (∀ (v id : String) (c : Int),
      decodeItemJson (serializeItem ⟨v, id, c, []⟩) = some ⟨v, id, c, []⟩ ∧
      ∃ fields, serializeItem ⟨v, id, c, []⟩ = Json.obj fields ∧
        jGet fields "components" = some (Json.obj [])) := by
  have hmain : ∀ item : Item, decodeItemJson (serializeItem item) = some item := by
    intro item
    obtain ⟨v, id, c, comps⟩ := item
    simp [decodeItemJson, serializeItem, jGet, jsonAsString, jsonAsNumber,
      jsonAsStringRecord_serialize]
  refine ⟨hmain, fun v id c => ⟨hmain ⟨v, id, c, []⟩, ?_⟩⟩
  exact ⟨_, rfl, rfl⟩

/-- C7: on both sides of the transport, a message that fails validation
against the declared message shapes is dropped: the handler returns with
the state unchanged and sends nothing. -/
theorem invalid_messages_dropped :
    (∀ (env : ServerEnv) (doc : Option Item) (data : Json),
      decodeClientMessages data = none →
      handleClientMessage env doc data = (doc, [])) ∧
    (∀ (st : ClientState) (data : Json),
      decodeServerMessages data = none →
      handleServerMessage st data = st) := by
  constructor
  · intro env doc data h
    simp [handleClientMessage, h]
  · intro st data h
    simp [handleServerMessage, h]

/-- Witness for C7: a bare string and an object with an unknown `type`
discriminator both fail validation and are dropped by each side. -/
theorem invalid_messages_dropped_witness :
    (decodeClientMessages (Json.str "bogus") = none ∧
      handleClientMessage serverEnvEx (some itemEx) (Json.str "bogus") =
        (some itemEx, [])) ∧
    (decodeServerMessages (Json.obj [("type", Json.str "frobnicate")]) = none ∧
      handleServerMessage clientStateEx (Json.obj [("type", Json.str "frobnicate")]) =
        clientStateEx) := by
  constructor
  · exact ⟨rfl, invalid_messages_dropped.1 serverEnvEx (some itemEx)
      (Json.str "bogus") rfl⟩
  · exact ⟨rfl, invalid_messages_dropped.2 clientStateEx
      (Json.obj [("type", Json.str "frobnicate")]) rfl⟩

/-- Helper: a `jGet` miss is exactly absence of the key. -/
theorem jGet_eq_none_iff {κ α : Type} [DecidableEq κ] (l : List (κ × α)) (k : κ) :
    jGet l k = none ↔ k ∉ l.map Prod.fst := by
  induction l with
  | nil => simp [jGet]
  | cons kv rest ih =>
    obtain ⟨k', v'⟩ := kv
    by_cases h : k' = k
    · subst h
      simp [jGet]
    · simp [jGet, h, ih, Ne.symm h]

/-- Helper: deleting a version's entry removes it from lookup. -/
theorem lookupTask_removeTask (tbl : TaskTable) (v : String) :
    lookupTask (removeTask tbl v) v = none := by
  induction tbl with
  | nil => rfl
  | cons kv rest ih =>
    obtain ⟨k', t'⟩ := kv
    by_cases h : k' = v
    · simpa [removeTask, h] using ih
    · simpa [removeTask, lookupTask, jGet, h] using ih

/-- Helper: deleting one version's entry leaves the others alone. -/
theorem lookupTask_removeTask_ne (tbl : TaskTable) (v w : String) (h : w ≠ v) :
    lookupTask (removeTask tbl v) w = lookupTask tbl w := by
  induction tbl with
  | nil => rfl
  | cons kv rest ih =>
    obtain ⟨k', t'⟩ := kv
    by_cases hk : k' = v
    · subst hk
      simp [removeTask, lookupTask, jGet, Ne.symm h] at ih ⊢
      simpa [removeTask] using ih
    · by_cases hw : k' = w
      · subst hw
        simp [removeTask, lookupTask, jGet, hk]
      · simp [removeTask, lookupTask, jGet, hk, hw] at ih ⊢
        simpa [removeTask] using ih

/-- Helper invariant: in every reachable state, the live-task table has
at most one entry per version (its key list has no duplicates). -/
theorem reachable_table_keys_nodup (s : UnpackSys) (h : UnpackReachable s) :
    (s.table.map Prod.fst).Nodup := by
  induction h with
  | init => simp [initUnpackSys]
  | step hr hs ih =>
    rename_i s _
    cases hs with
    | sample v => exact ih
    | resume v b hmem =>
      cases b with
      | true => simpa [ensureUnpackedResume] using ih
      | false =>
        cases hl : lookupTask s.table v with
        | some t => simpa [ensureUnpackedResume, hl] using ih
        | none =>
          have hv : v ∉ s.table.map Prod.fst := (jGet_eq_none_iff _ _).mp hl
          simp only [ensureUnpackedResume, hl, insertTask]
          simp [List.nodup_append, ih, hv]
    | mkdirDone v t hl => exact ih
    | settle v t hl =>
      exact ih.sublist ((List.filter_sublist _).map _)

/-- Helper: the state with a freshly started task for `"1.21"` is
reachable. -/
theorem unpackSysStarted_reachable : UnpackReachable unpackSysStarted := by
  have h1 : UnpackReachable unpackSysSampled :=
    .step .init (UnpackStep.sample initUnpackSys "1.21")
  exact .step h1 (UnpackStep.resume unpackSysSampled "1.21" false (by decide))

/-- Helper: the state where the live task has created the bundle
directory is reachable. -/
theorem unpackSysMkdirDone_reachable : UnpackReachable unpackSysMkdirDone :=
  .step unpackSysStarted_reachable
    (UnpackStep.mkdirDone unpackSysStarted "1.21" 0 rfl)

/-- Helper: the post-failure state (directory created, task settled and
cleared) is reachable. -/
theorem unpackSysFailed_reachable : UnpackReachable unpackSysFailed :=
  .step unpackSysMkdirDone_reachable
    (UnpackStep.settle unpackSysMkdirDone "1.21" 0 rfl)

/-- C1 (amended): in every reachable state with a live unpack task `t`
for version `v`: the live-task table has at most one task per version; a
call that sampled the bundle directory as absent and resumes now joins
exactly task `t` (and leaves the table unchanged); no call can start a
second task while `t` is live; and the settlement `finally` removes the
entry (leaving other versions' entries alone). A call that samples the
directory as present — which happens as soon as the task has created the
bundle directory — returns immediately, without the task. -/
theorem ensureUnpacked_dedup (s : UnpackSys) (hs : UnpackReachable s)
    (v : String) (t : Nat) (ht : lookupTask s.table v = some t) :
    (s.table.map Prod.fst).Nodup ∧
    (ensureUnpackedResume false s.table v s.nextId = (.joined t, s.table)) ∧
    (∀ (b : Bool) (fresh t' : Nat),
      (ensureUnpackedResume b s.table v fresh).1 ≠ .started t') ∧
    (lookupTask (removeTask s.table v) v = none ∧
      ∀ w, w ≠ v → lookupTask (removeTask s.table v) w = lookupTask s.table w) ∧
    ((ensureUnpackedResume true s.table v s.nextId).1 = .immediate) := by
  refine ⟨reachable_table_keys_nodup s hs, ?_, ?_, ?_, rfl⟩
  · simp [ensureUnpackedResume, ht]
  · intro b fresh t'
    cases b with
    | true => simp [ensureUnpackedResume]
    | false => simp [ensureUnpackedResume, ht]
  · exact ⟨lookupTask_removeTask s.table v,
      fun w hw => lookupTask_removeTask_ne s.table v w hw⟩

/-- Counterexample to C1 as stated: in the reachable state where the
unpack task 0 for version `"1.21"` is still live but has already created
the bundle directory, a newly issued `ensureUnpackedVersion "1.21"` call
samples `exists()` as true and returns immediately — not the live task
0 — so not every call issued while the task is live observes its
completion or failure. -/
theorem ensureUnpacked_dedup_counterexample :
    UnpackReachable unpackSysMkdirDone ∧
    lookupTask unpackSysMkdirDone.table "1.21" = some 0 ∧
    existsCheck unpackSysMkdirDone.dirs "1.21" = true ∧
    (ensureUnpackedResume (existsCheck unpackSysMkdirDone.dirs "1.21")
        unpackSysMkdirDone.table "1.21" unpackSysMkdirDone.nextId).1 =
      EnsureResult.immediate ∧
    EnsureResult.immediate ≠ EnsureResult.joined 0 :=
  ⟨unpackSysMkdirDone_reachable, rfl, rfl, rfl, by decide⟩

/-- Witness for C1 (amended) at the reachable state with live task 0 for
`"1.21"` and the directory not yet created. -/
theorem ensureUnpacked_dedup_witness :
    (unpackSysStarted.table.map Prod.fst).Nodup ∧
    ensureUnpackedResume false unpackSysStarted.table "1.21"
      unpackSysStarted.nextId = (.joined 0, unpackSysStarted.table) ∧
    lookupTask (removeTask unpackSysStarted.table "1.21") "1.21" = none := by
  obtain ⟨h1, h2, _, ⟨h4, _⟩, _⟩ :=
    ensureUnpacked_dedup unpackSysStarted unpackSysStarted_reachable "1.21" 0 rfl
  exact ⟨h1, h2, h4⟩

/-- C2 (amended): the unpack task settles as follows — a data-generator
run after successful directory creation and extraction always resolves
the task, whatever the generator's exit code (the exit handler calls
`res()` unconditionally); an extraction failure rejects the task;
whatever the sampled generator exit code, the settlement value is the
same. Every concurrent waiter that joined while the directory was unseen
got the very same task (hence the same settlement value); settling
clears the live-task entry, but a call after a failure that left the
bundle directory behind samples `exists()` as true and returns
immediately — the sequence is not retried. -/
theorem unpack_failure_semantics :
    (∀ env : UnpackEnv, env.mkdirOk = true → env.extractOk = true →
      unpackVersionResult env = .ok ()) ∧
    (∀ env : UnpackEnv, env.mkdirOk = true → env.extractOk = false →
      unpackVersionResult env = .error .extractFailed) ∧
    (∀ (c c' : Int) (m e : Bool),
      unpackVersionResult ⟨m, e, c⟩ = unpackVersionResult ⟨m, e, c'⟩) ∧
    (∀ (tbl : TaskTable) (v : String) (t : Nat), lookupTask tbl v = some t →
      (∀ fresh, (ensureUnpackedResume false tbl v fresh).1 = .joined t) ∧
      lookupTask (removeTask tbl v) v = none) ∧
    (∀ (dirs : List String) (tbl : TaskTable) (v : String) (fresh : Nat),
      existsCheck dirs v = true →
      (ensureUnpackedResume (existsCheck dirs v) tbl v fresh).1 = .immediate) := by
  refine ⟨?_, ?_, ?_, ?_, ?_⟩
  · intro env hm he
    simp [unpackVersionResult, hm, he]
  · intro env hm he
    simp [unpackVersionResult, hm, he]
  · intro c c' m e
    cases m <;> cases e <;> simp [unpackVersionResult]
  · intro tbl v t ht
    exact ⟨fun fresh => by simp [ensureUnpackedResume, ht],
      lookupTask_removeTask tbl v⟩
  · intro dirs tbl v fresh hd
    simp [hd, ensureUnpackedResume]

/-- Counterexample to C2 as stated: with directory creation and
extraction succeeding and the data generator exiting with the non-zero
code 1, the unpack task resolves (it is not rejected); and in the
reachable post-failure state for `"1.21"` (bundle directory created, the
failed task's entry cleared), the next `ensureUnpackedVersion "1.21"`
call samples `exists()` as true and returns immediately instead of
retrying the sequence. -/
theorem unpack_failure_semantics_counterexample :
    unpackVersionResult ⟨true, true, 1⟩ = .ok () ∧
    unpackVersionResult ⟨true, true, 1⟩ ≠ .error .mkdirFailed ∧
    unpackVersionResult ⟨true, true, 1⟩ ≠ .error .extractFailed ∧
    UnpackReachable unpackSysFailed ∧
    lookupTask unpackSysFailed.table "1.21" = none ∧
    existsCheck unpackSysFailed.dirs "1.21" = true ∧
    (ensureUnpackedResume (existsCheck unpackSysFailed.dirs "1.21")
        unpackSysFailed.table "1.21" unpackSysFailed.nextId).1 =
      EnsureResult.immediate :=
  ⟨rfl, by simp [unpackVersionResult], by simp [unpackVersionResult],
    unpackSysFailed_reachable, rfl, rfl, rfl⟩

/-- Witness for C2 (amended) at concrete environments and the concrete
started-task state. -/
theorem unpack_failure_semantics_witness :
    unpackVersionResult ⟨true, true, 7⟩ = .ok () ∧
    unpackVersionResult ⟨true, false, 0⟩ = .error .extractFailed ∧
    unpackVersionResult ⟨true, true, 0⟩ = unpackVersionResult ⟨true, true, 255⟩ ∧
    (ensureUnpackedResume false unpackSysStarted.table "1.21" 5).1 = .joined 0 ∧
    (ensureUnpackedResume (existsCheck unpackSysFailed.dirs "1.21")
        unpackSysFailed.table "1.21" 5).1 = .immediate := by
  obtain ⟨h1, h2, h3, h4, h5⟩ := unpack_failure_semantics
  exact ⟨h1 ⟨true, true, 7⟩ rfl rfl, h2 ⟨true, false, 0⟩ rfl rfl,
    h3 0 255 true true, (h4 unpackSysStarted.table "1.21" 0 rfl).1 5,
    h5 unpackSysFailed.dirs unpackSysFailed.table "1.21" 5 rfl⟩

/-- Helper: a JS record update is a pointwise overwrite under lookup. -/
theorem jGet_recordSet {κ α : Type} [DecidableEq κ]
    (m : List (κ × α)) (k : κ) (v : α) (k' : κ) :
    jGet (recordSet m k v) k' = if k' = k then some v else jGet m k' := by
  induction m with
  | nil => simp [recordSet, jGet, eq_comm]
  | cons kv rest ih =>
    obtain ⟨k0, v0⟩ := kv
    by_cases h0 : k0 = k
    · subst h0
      by_cases h1 : k0 = k'
      · subst h1
        simp [recordSet, jGet]
      · have h1' : ¬k' = k0 := fun h => h1 h.symm
        simp [recordSet, jGet, h1, h1']
    · by_cases h1 : k0 = k'
      · subst h1
        have h0' : ¬k0 = k := h0
        simp [recordSet, jGet, h0, h0']
      · have h1' : ¬k' = k0 := fun h => h1 h.symm
        simp [recordSet, jGet, h0, h1, h1', ih]

/-- Helper: folding a sequence of record updates realizes
"last assignment wins" on lookups. -/
theorem jGet_foldl_recordSet (l : List (Nat × RawCharData)) (t : GlyphTable)
    (code : Nat) :
    jGet (l.foldl (fun t a => recordSet t a.1 a.2) t) code =
      match lastAssignment l code with
      | some d => some d
      | none => jGet t code := by
  induction l generalizing t with
  | nil => simp [lastAssignment]
  | cons a l ih =>
    simp only [List.foldl_cons, lastAssignment, ih, jGet_recordSet]
    cases lastAssignment l code with
    | some d => simp
    | none =>
      by_cases h : a.1 = code
      · simp [h]
      · have h' : ¬code = a.1 := fun hh => h hh.symm
        simp [h, h']

/-- Helper: the nested row/column loops of `generate()` coincide with
folding the provider's assignment sequence. -/
theorem generateProviderChars_eq_foldl (texWidths : Fin 3 → Nat) (page : Fin 3)
    (height : Nat) (rows : List String) (tbl : GlyphTable) :
    generateProviderChars texWidths page height rows tbl =
      (rows.enum.flatMap
        (fun irow =>
          specRowAssignments page (texWidths page / irow.2.length) height
            irow.1 irow.2)).foldl
        (fun t a => recordSet t a.1 a.2) tbl := by
  rw [List.flatMap_def, List.foldl_flatten, List.foldl_map]
  unfold generateProviderChars
  apply List.foldl_ext
  intro t irow _
  simp [specRowAssignments, List.foldl_map]

/-- Helper: the provider fold of `generate()`, when it succeeds, equals
folding the flattened assignment sequence. -/
theorem generate_aux (texWidths : Fin 3 → Nat) :
    ∀ (ps : List MCFontProvider) (t tbl : GlyphTable),
      List.foldlM
        (fun tbl p =>
          match MC2PAGE p.file with
          | some page =>
            Except.ok (generateProviderChars texWidths page (p.height.getD 8) p.chars tbl)
          | none =>
            if p.chars.isEmpty then Except.ok tbl
            else Except.error "TypeError: cannot read width of textures[undefined]")
        t ps = Except.ok tbl →
      tbl = (ps.flatMap (specProviderAssignments texWidths)).foldl
        (fun t a => recordSet t a.1 a.2) t := by
  intro ps
  induction ps with
  | nil =>
    intro t tbl h
    simp only [List.foldlM_nil] at h
    cases h
    rfl
  | cons p ps ih =>
    intro t tbl h
    rw [List.foldlM_cons] at h
    cases hp : MC2PAGE p.file with
    | some page =>
      simp only [hp] at h
      have hbind :
          List.foldlM
            (fun tbl p =>
              match MC2PAGE p.file with
              | some page =>
                Except.ok (generateProviderChars texWidths page (p.height.getD 8) p.chars tbl)
              | none =>
                if p.chars.isEmpty then Except.ok tbl
                else Except.error "TypeError: cannot read width of textures[undefined]")
            (generateProviderChars texWidths page (p.height.getD 8) p.chars t) ps =
            Except.ok tbl := h
      have hrec := ih _ _ hbind
      rw [generateProviderChars_eq_foldl] at hrec
      rw [hrec]
      simp [specProviderAssignments, hp, List.foldl_append]
    | none =>
      simp only [hp] at h
      cases he : p.chars.isEmpty with
      | true =>
        simp only [he, if_pos rfl] at h
        have hrec := ih _ _ h
        rw [hrec]
        simp [specProviderAssignments, hp]
      | false =>
        simp only [he, Bool.false_eq_true, if_false] at h
        exact Except.noConfusion h

/-- C5: the glyph table built by `generate()` equals the reference
definition written from the claim: providers in manifest order, rows in
order, each row of `N` characters against its page of width `W` giving
every character `cellWidth = ⌊W / N⌋`, position `(column * cellWidth,
rowIndex * rowHeight)` with `rowHeight` defaulting to 8, `advance =
cellWidth`, zero offsets and no kerning — and when a character code is
assigned more than once, the last assignment in processing order wins. -/
theorem font_generate_eq_reference :
    ∀ (texWidths : Fin 3 → Nat) (data : MCFontData) (tbl : GlyphTable),
      MinecraftBitmapFont.generate texWidths data = .ok tbl →
      ∀ code : Nat,
        jGet tbl code = lastAssignment (specGlyphAssignments texWidths data) code := by
  intro texWidths data tbl h code
  unfold MinecraftBitmapFont.generate at h
  have hrec := generate_aux texWidths data.providers [] tbl h
  rw [hrec, jGet_foldl_recordSet]
  cases hla :
      lastAssignment (data.providers.flatMap (specProviderAssignments texWidths)) code with
  | some d => simp [specGlyphAssignments, hla]
  | none => simp [specGlyphAssignments, hla, jGet]

/-- Witness for C5 at a concrete manifest: two providers, the second
reassigning character `a`; the built table matches the reference
definition, `b` keeps its first-provider cell (cellWidth ⌊16/2⌋ = 8,
column 1) and `a` carries the later provider's assignment (cellWidth
⌊9/1⌋ = 9, row height 12) — last write wins. -/
theorem font_generate_eq_reference_witness :
    MinecraftBitmapFont.generate texWidthsEx fontDataEx = .ok fontTableEx ∧
    jGet fontTableEx 97 = lastAssignment (specGlyphAssignments texWidthsEx fontDataEx) 97 ∧
    jGet fontTableEx 98 = lastAssignment (specGlyphAssignments texWidthsEx fontDataEx) 98 ∧
    jGet fontTableEx 97 = some ⟨1, 0, 0, 9, 12, 'a', 9, 0, 0⟩ ∧
    jGet fontTableEx 98 = some ⟨0, 8, 0, 8, 8, 'b', 8, 0, 0⟩ := by
  refine ⟨rfl, ?_, ?_, by decide, by decide⟩
  · exact font_generate_eq_reference texWidthsEx fontDataEx fontTableEx rfl 97
  · exact font_generate_eq_reference texWidthsEx fontDataEx fontTableEx rfl 98

/-- Helper: every `MCText` node counts at least itself. -/
theorem MCText.nodeCount_pos (t : MCText) : 0 < t.nodeCount := by
  cases t with
  | str s => simp [MCText.nodeCount]
  | list xs => simp [MCText.nodeCount]
  | node text color extra => cases extra <;> simp [MCText.nodeCount]

/-- Helper: node count of a child list, via `toList`. -/
theorem nodeCount_toList_sum : (xs : MCTextList) →
    (xs.toList.map MCText.nodeCount).sum = xs.nodeCountList
  | .nil => rfl
  | .cons h t => by
    simp [MCTextList.toList, MCTextList.nodeCountList, nodeCount_toList_sum t]

/-- Helper: queue node count distributes over append. -/
theorem queueNodeCount_append (a b : List (MCText × JsVal)) :
    queueNodeCount (a ++ b) = queueNodeCount a + queueNodeCount b := by
  simp [queueNodeCount]

/-- Helper: enqueuing a child list contributes its node count,
independently of the colour attached. -/
theorem queueNodeCount_enqueue (xs : MCTextList) (c : JsVal) :
    queueNodeCount (enqueueChildren xs c) = xs.nodeCountList := by
  simp only [queueNodeCount, enqueueChildren, List.map_map]
  simpa [Function.comp] using nodeCount_toList_sum xs

/-- Helper: queue node count of a cons. -/
theorem queueNodeCount_cons (p : MCText × JsVal) (rest : List (MCText × JsVal)) :
    queueNodeCount (p :: rest) = p.1.nodeCount + queueNodeCount rest := by
  simp [queueNodeCount]

/-- Helper: total node count of the queue is enough fuel — with at least
that much fuel the loop runs to queue exhaustion, so `runLineLoop`
(which supplies exactly that much) models the unbounded
`while (parts.length > 0)` loop. -/
theorem runLineLoopF_fuel_sufficient (mW mH : String → JsVal → Nat) :
    ∀ (fuel : Nat) (q : List (MCText × JsVal)) (x h y : Nat)
      (runs : List TextRun),
      queueNodeCount q ≤ fuel →
      runLineLoopF mW mH fuel q x h y runs = runLineLoop mW mH q x h y runs := by
  intro fuel
  induction fuel with
  | zero =>
    intro q x h y runs hle
    cases q with
    | nil => rfl
    | cons p rest =>
      exfalso
      have hpos := MCText.nodeCount_pos p.1
      simp [queueNodeCount] at hle
      omega
  | succ fuel ih =>
    intro q x h y runs hle
    cases q with
    | nil => rfl
    | cons p rest =>
      obtain ⟨top, pc⟩ := p
      cases top with
      | str s =>
        have hc : queueNodeCount ((MCText.str s, pc) :: rest) =
            queueNodeCount rest + 1 := by
          simp only [queueNodeCount_cons, MCText.nodeCount]
          omega
        have hq : queueNodeCount rest ≤ fuel := by omega
        rw [runLineLoop, hc]
        simp only [runLineLoopF]
        exact ih _ _ _ _ _ hq
      | list xs =>
        have hc : queueNodeCount ((MCText.list xs, pc) :: rest) =
            queueNodeCount (rest ++ enqueueChildren xs pc) + 1 := by
          simp only [queueNodeCount_cons, queueNodeCount_append,
            queueNodeCount_enqueue, MCText.nodeCount]
          omega
        have hq : queueNodeCount (rest ++ enqueueChildren xs pc) ≤ fuel := by
          omega
        rw [runLineLoop, hc]
        simp only [runLineLoopF]
        exact ih _ _ _ _ _ hq
      | node text color extra =>
        cases extra with
        | none =>
          have hc : queueNodeCount ((MCText.node text color none, pc) :: rest) =
              queueNodeCount rest + 1 := by
            simp only [queueNodeCount_cons, MCText.nodeCount]
            omega
          have hq : queueNodeCount rest ≤ fuel := by omega
          rw [runLineLoop, hc]
          simp only [runLineLoopF]
          exact ih _ _ _ _ _ hq
        | some xs =>
          cases color with
          | none =>
            have hc :
                queueNodeCount ((MCText.node text none (some xs), pc) :: rest) =
                queueNodeCount (rest ++ enqueueChildren xs pc) + 1 := by
              simp only [queueNodeCount_cons, queueNodeCount_append,
                queueNodeCount_enqueue, MCText.nodeCount]
              omega
            have hq : queueNodeCount (rest ++ enqueueChildren xs pc) ≤ fuel := by
              omega
            rw [runLineLoop, hc]
            simp only [runLineLoopF]
            exact ih _ _ _ _ _ hq
          | some c =>
            have hc :
                queueNodeCount
                  ((MCText.node text (some c) (some xs), pc) :: rest) =
                queueNodeCount (rest ++ enqueueChildren xs (JsVal.rawStr c)) + 1 := by
              simp only [queueNodeCount_cons, queueNodeCount_append,
                queueNodeCount_enqueue, MCText.nodeCount]
              omega
            have hq : queueNodeCount (rest ++ enqueueChildren xs (JsVal.rawStr c)) ≤
                fuel := by omega
            rw [runLineLoop, hc]
            simp only [runLineLoopF]
            exact ih _ _ _ _ _ hq

/-- C4: evaluation at the failing input. A single line with two runs of
rendered heights 30 then 20: the runs are placed at the advancing
horizontal cursor (x = 0 then x = 40) and the panel width is the line
width 60 plus the outer and inner horizontal padding (8 each) on both
sides — but the line's vertical advance is the LAST run's height 20, not
the tallest run height 30, because `textHeight = Math.max(0, text.height)`
overwrites the register instead of accumulating
(`Math.max(textHeight, text.height)` was evidently intended — maxing
with 0 is a no-op). The panel height is therefore 20 + 32 = 52 and not
the claimed 30 + 32 = 62. -/
theorem buildTooltip_last_run_height_not_tallest :
    (buildTooltip mWex mHex tooltipLinesEx).runs =
      [{ text := "tall", fill := TOOLTIP_DEFAULT_TEXT_COLOR, x := 0, y := 0 },
       { text := "low", fill := TOOLTIP_DEFAULT_TEXT_COLOR, x := 40, y := 0 }] ∧
    mHex "tall" TOOLTIP_DEFAULT_TEXT_COLOR = 30 ∧
    mHex "low" TOOLTIP_DEFAULT_TEXT_COLOR = 20 ∧
    (buildTooltip mWex mHex tooltipLinesEx).bgW =
      60 + TOOLTIP_PADDING_OUT_X * 2 + TOOLTIP_PADDING_INNER_X * 2 ∧
    (buildTooltip mWex mHex tooltipLinesEx).bgH =
      20 + TOOLTIP_PADDING_OUT_Y * 2 + TOOLTIP_PADDING_INNER_Y * 2 ∧
    (buildTooltip mWex mHex tooltipLinesEx).bgH ≠
      30 + TOOLTIP_PADDING_OUT_Y * 2 + TOOLTIP_PADDING_INNER_Y * 2 := by
  refine ⟨by decide, by decide, by decide, by decide, by decide, by decide⟩
